import Mathlib

/-!
Shallow embedding of the yuugi per-process CPU-time / energy sampler
(src/main.rs) together with proofs about its sampling pipeline.

Modelling conventions:
- Machine integers (`u64`) are modelled as `Nat`, with wrap-around made
  explicit as `% 2 ^ 64` where the source performs `u64` addition, and with
  the saturating `f64 -> u64` cast (`as u64`) made explicit as a clamp to
  `2 ^ 64 - 1`.
- The `f64` arithmetic of the source is modelled as exact rational
  arithmetic over `ℚ`.
- Fallible operations (the `/proc/<pid>/stat` read, `sysconf`) are modelled
  as `Option`; a Rust panic (a failed `unwrap`, an out-of-bounds index) is
  modelled as `none` at the level of the enclosing computation, so a
  sampling pass that panics yields no resulting store.
- The Prometheus `Family<Labels, Counter>` registries are modelled as
  association lists from `Labels` to the stored `u64` value;
  `get_or_create(..).inner().store(v)` is an upsert of `v` at the key.
-/

/-- Rust `str::split(' ')` on the character list of a string: splits at every
single space character, keeping empty fragments (so consecutive separators
produce empty fields, as in Rust). -/
def splitChar (sep : Char) : List Char → List (List Char)
  | [] => [[]]
  | c :: rest =>
    let r := splitChar sep rest
    if c = sep then [] :: r
    else
      match r with
      | [] => [[c]]
      | w :: ws => (c :: w) :: ws

/-- Value of a list of ASCII decimal digits, accumulator style; `none` if any
character is not a digit. -/
def digitsVal : List Char → Nat → Option Nat
  | [], acc => some acc
  | c :: rest, acc =>
    if c.isDigit then digitsVal rest (acc * 10 + (c.toNat - 48)) else none

/-- Rust `str::parse::<u64>()`: an optional leading plus sign, then one or
more ASCII digits, value strictly below `2 ^ 64` (overflow is an error). -/
def parseU64 (s : List Char) : Option Nat :=
  let ds := match s with
    | '+' :: rest => rest
    | other => other
  match ds with
  | [] => none
  | _ =>
    match digitsVal ds 0 with
    | some n => if n < 2 ^ 64 then some n else none
    | none => none

/-- Embedding of `get_process_jiffies` (src/main.rs lines 48-62).  The
argument is the outcome of `fs::read_to_string("/proc/<pid>/stat")`:
`none` models a read error (`Err`), in which case the function logs a
warning and returns `0`.  On a successful read the contents are split on
single spaces; the source then indexes fields 13 and 14 (`contents[13]`,
`contents[14]`) and parses each with `.parse().unwrap()`, so a missing
field or an unparseable field is a panic, modelled as `none`.  The `u64`
sum `utime + stime` wraps modulo `2 ^ 64`. -/
def get_process_jiffies (readResult : Option String) : Option Nat :=
  match readResult with
  | none => some 0
  | some contents =>
    let fields := splitChar ' ' contents.data
    match fields[13]? with
    | none => none
    | some f13 =>
      match parseU64 f13 with
      | none => none
      | some utime =>
        match fields[14]? with
        | none => none
        | some f14 =>
          match parseU64 f14 with
          | none => none
          | some stime => some ((utime + stime) % 2 ^ 64)

/-- Embedding of the `Labels` struct (src/main.rs lines 64-69): the metric
key of both families. -/
structure Labels where
  process_name : String
  cmdline : String
  pid : String
deriving DecidableEq

/-- One Prometheus `Family<Labels, Counter>`: an association list from
`Labels` to the stored `u64` value. -/
def Family : Type := List (Labels × Nat)

instance : DecidableEq Family := fun a b => List.hasDecEq a b

/-- Effect of `family.get_or_create(&labels).inner().store(v)`: if the key is
absent a fresh entry is created, and the value is unconditionally
overwritten with `v`.  The entry's position is preserved when present. -/
def Family.upsert : Family → Labels → Nat → Family
  | [], l, v => [(l, v)]
  | (l', v') :: rest, l, v =>
    if l' = l then (l, v) :: rest else (l', v') :: Family.upsert rest l v

/-- Lookup of the stored value for a key (the exporter's read of one series). -/
def Family.find : Family → Labels → Option Nat
  | [], _ => none
  | (l', v') :: rest, l => if l' = l then some v' else Family.find rest l

/-- The Metric Store: the two families `cpu_time` and `energy` registered in
`main` (src/main.rs lines 93-94). -/
structure Store where
  cpu_time : Family
  energy : Family
deriving DecidableEq

/-- Both families start empty (`Family::default()`). -/
def emptyStore : Store := { cpu_time := ([] : List (Labels × Nat)), energy := ([] : List (Labels × Nat)) }

/-- Rust saturating cast `f64 as u64` on a rational (the `f64` value is
modelled exactly): nonpositive values go to `0`, otherwise the value is
truncated toward zero and clamped to `u64::MAX = 2 ^ 64 - 1`. -/
def f64ToU64 (q : ℚ) : Nat := if q ≤ 0 then 0 else min ⌊q⌋.toNat (2 ^ 64 - 1)

/-- The `run_time` local (src/main.rs line 176):
`(get_process_jiffies(pid) as f64) * jiffy_in_seconds`. -/
def runTime (ticks : Nat) (jiffy_in_seconds : ℚ) : ℚ :=
  (ticks : ℚ) * jiffy_in_seconds

/-- The value stored into the `cpu_time` family (src/main.rs line 183):
`run_time as u64`. -/
def cpuSecondsStored (ticks : Nat) (jiffy_in_seconds : ℚ) : Nat :=
  f64ToU64 (runTime ticks jiffy_in_seconds)

/-- The value stored into the `energy` family (src/main.rs lines 185-191):
`((run_time * average_core_power) / 3600.0) as u64`.  Note the source uses
the un-truncated `run_time` here, not the truncated stored CPU seconds. -/
def energyStored (ticks : Nat) (jiffy_in_seconds average_core_power : ℚ) : Nat :=
  f64ToU64 (runTime ticks jiffy_in_seconds * average_core_power / 3600)

/-- One enumerated process as seen by the sampling loop: its sysinfo identity
fields and the outcome of reading its `/proc/<pid>/stat` accounting record
(`none` = read error). -/
structure ProcView where
  name : String
  cmd : List String
  pid : Nat
  stat : Option String
deriving DecidableEq

/-- Construction of the metric key for one process (src/main.rs lines
170-174): `process.name()`, `process.cmd().join(" ")`, `pid.to_string()`. -/
def mkLabels (p : ProcView) : Labels :=
  { process_name := p.name
    cmdline := String.intercalate " " p.cmd
    pid := Nat.repr p.pid }

/-- Upsert of both series for one identity, as done by the two
`get_or_create(..).store(..)` calls of a loop iteration. -/
def upsertStore (st : Store) (l : Labels) (c e : Nat) : Store :=
  { cpu_time := st.cpu_time.upsert l c, energy := st.energy.upsert l e }

/-- One iteration of the `for (pid, process) in sys.processes()` loop body
(src/main.rs lines 169-192): read the accounting record, convert, and
overwrite both series for this identity.  A panic inside the iteration
(malformed record) aborts the whole pass, hence `none`. -/
def sampleOne (jiffy_in_seconds average_core_power : ℚ) (p : ProcView) (st : Store) :
    Option Store :=
  match get_process_jiffies p.stat with
  | none => none
  | some ticks =>
    some (upsertStore st (mkLabels p)
      (cpuSecondsStored ticks jiffy_in_seconds)
      (energyStored ticks jiffy_in_seconds average_core_power))

/-- One full sampling pass: the loop body applied to every enumerated
process in order.  A panic aborts the pass (and the process), so no
resulting store is produced. -/
def samplePass (jiffy_in_seconds average_core_power : ℚ) :
    List ProcView → Store → Option Store
  | [], st => some st
  | p :: rest, st =>
    match sampleOne jiffy_in_seconds average_core_power p st with
    | none => none
    | some st' => samplePass jiffy_in_seconds average_core_power rest st'

/-- The OS view offered to one sampling pass: the enumerated processes and
whatever physical-core count the host would currently report.  The loop
body never re-queries the core count; the field records that the
information could change mid-run. -/
structure PassInput where
  procs : List ProcView
  reported_physical_cores : Nat
deriving DecidableEq

/-- A finite prefix of the infinite sampling loop (src/main.rs lines
163-193): each `PassInput` is the OS state at one tick of the interval
timer. -/
def runPasses (jiffy_in_seconds average_core_power : ℚ) :
    List PassInput → Store → Option Store
  | [], st => some st
  | i :: rest, st =>
    match samplePass jiffy_in_seconds average_core_power i.procs st with
    | none => none
    | some st' => runPasses jiffy_in_seconds average_core_power rest st'

/-- Embedding of the `Cli` configuration struct (src/main.rs lines 12-46). -/
structure Cli where
  metrics_address : String
  collection_interval : Nat
  average_die_power : ℚ

/-- Host facts resolved once during startup: the physical core count
(src/main.rs line 90) and the `sysconf(ScClkTck)` result (line 96), whose
failure (`none`) makes the startup `unwrap` panic. -/
structure OsStartup where
  num_physical_cores : Nat
  clk_tck : Option Int

/-- The derived power model (src/main.rs line 91):
`average_die_power / (num_physical_cores as f64)`. -/
def averageCorePower (average_die_power : ℚ) (num_physical_cores : Nat) : ℚ :=
  average_die_power / (num_physical_cores : ℚ)

/-- Observable outcome of a (finite prefix of a) program run: either startup
panicked before the sampling loop began, or the loop ran and `ran`
carries the final store (`none` inside when a pass panicked mid-run). -/
inductive RunOutcome where
  | startupFailure : RunOutcome
  | ran : Option Store → RunOutcome
deriving DecidableEq

/-- Embedding of `main` (src/main.rs lines 71-194) restricted to the sampling
core: resolve the power model and clock rate once at startup — a `sysconf`
failure is a panic before the loop, so no pass runs and nothing is ever
stored — then drive the given finite prefix of pass inputs starting from
the empty store. -/
def mainModel (cli : Cli) (os : OsStartup) (inputs : List PassInput) : RunOutcome :=
  let acp := averageCorePower cli.average_die_power os.num_physical_cores
  match os.clk_tck with
  | none => RunOutcome.startupFailure
  | some clk =>
    let jiffy_in_seconds := 1 / (clk : ℚ)
    RunOutcome.ran (runPasses jiffy_in_seconds acp inputs emptyStore)

/-- Result of the conversion stage for one process: its key and the two
values that the loop body will store. -/
def procResult (jiffy_in_seconds average_core_power : ℚ) (p : ProcView) :
    Option (Labels × Nat × Nat) :=
  match get_process_jiffies p.stat with
  | none => none
  | some t =>
    some (mkLabels p,
      cpuSecondsStored t jiffy_in_seconds,
      energyStored t jiffy_in_seconds average_core_power)

/-- Conversion results of a whole pass; `none` as soon as any process
panics. -/
def procResults (jiffy_in_seconds average_core_power : ℚ) :
    List ProcView → Option (List (Labels × Nat × Nat))
  | [] => some []
  | p :: rest =>
    match procResult jiffy_in_seconds average_core_power p,
        procResults jiffy_in_seconds average_core_power rest with
    | some r, some rs => some (r :: rs)
    | _, _ => none

/-- Application of one conversion result to the store. -/
def applyOne (st : Store) (r : Labels × Nat × Nat) : Store :=
  upsertStore st r.1 r.2.1 r.2.2

/-- Application of a list of conversion results, left to right. -/
def applyAll : List (Labels × Nat × Nat) → Store → Store
  | [], st => st
  | r :: rs, st => applyAll rs (applyOne st r)

/-- Last value written for a key by a list of conversion results, if any. -/
def lastWrite : List (Labels × Nat × Nat) → Labels → Option (Nat × Nat)
  | [], _ => none
  | r :: rs, l =>
    match lastWrite rs l with
    | some v => some v
    | none => if r.1 = l then some r.2 else none

/-- Fixture: a process whose accounting record could not be read. -/
def pFail : ProcView := { name := "a", cmd := [], pid := 7, stat := none }

/-- Fixture: a pass input containing only the unreadable process. -/
def inFail : PassInput := { procs := [pFail], reported_physical_cores := 4 }

/-- Fixture: the store after sampling the unreadable process once with
conversion factors both one. -/
def stFail : Store :=
  upsertStore emptyStore (mkLabels pFail) (cpuSecondsStored 0 1) (energyStored 0 1 1)

/-- Fixture: a label not produced by any fixture process. -/
def lOther : Labels := { process_name := "z", cmdline := "", pid := "9" }

/-- Fixture: an accounting record reporting 100 user ticks and 0 kernel
ticks. -/
def stat100 : String := "0 0 0 0 0 0 0 0 0 0 0 0 0 100 0"

/-- Fixture: an accounting record reporting 150 user ticks and 0 kernel
ticks. -/
def stat150 : String := "0 0 0 0 0 0 0 0 0 0 0 0 0 150 0"

/-- Fixture: a process whose accounting record reads 100 total ticks. -/
def p100 : ProcView := { name := "p", cmd := [], pid := 1, stat := some stat100 }

/-- Fixture: the same identity as `p100`, later reading 150 total ticks. -/
def p150 : ProcView := { name := "p", cmd := [], pid := 1, stat := some stat150 }

/-- Fixture: a process whose record reads successfully but is malformed. -/
def pBad : ProcView := { name := "q", cmd := [], pid := 2, stat := some "x" }

/-- Fixture: a process reading one total tick, for the energy formula
counterexample. -/
def p1tick : ProcView :=
  { name := "p", cmd := [], pid := 1, stat := some "0 0 0 0 0 0 0 0 0 0 0 0 0 1 0" }

/-- Fixture: the label of `p1tick` (and of `p100`, `p150`). -/
def l1ex : Labels := { process_name := "p", cmdline := "", pid := "1" }

/-- Fixture: the store after the energy-formula witness upsert. -/
def stW100 : Store :=
  upsertStore emptyStore (mkLabels p100) (cpuSecondsStored 100 1) (energyStored 100 1 0)

/-- Fixture: an accounting record whose 14th and 15th fields are both
`u64::MAX`, so the `u64` sum wraps. -/
def statOverflow : String :=
  "0 0 0 0 0 0 0 0 0 0 0 0 0 18446744073709551615 18446744073709551615"

/-- Fixture: a well-formed accounting record with fields 13 and 14 equal to
1 and 2. -/
def statW : String := "0 0 0 0 0 0 0 0 0 0 0 0 0 1 2"

/-- Fixture: a configuration with the default address, interval and die
power. -/
def cliW : Cli :=
  { metrics_address := "127.0.0.1:9090", collection_interval := 100, average_die_power := 35 }

/-- Fixture: a host reporting 7 physical cores and a clock rate of 100. -/
def osW : OsStartup := { num_physical_cores := 7, clk_tck := some 100 }

/-- Fixture: a host on which the clock-rate query fails. -/
def osFail : OsStartup := { num_physical_cores := 7, clk_tck := none }

/-- Fixture: an empty pass input reporting 4 physical cores. -/
def inA : PassInput := { procs := [], reported_physical_cores := 4 }

/-- Fixture: an empty pass input reporting 9 physical cores. -/
def inB : PassInput := { procs := [], reported_physical_cores := 9 }

theorem Family.find_upsert_self (f : Family) (l : Labels) (v : Nat) :
    (f.upsert l v).find l = some v := by
  induction f with
  | nil => simp [Family.upsert, Family.find]
  | cons hd tl ih =>
    obtain ⟨l', v'⟩ := hd
    by_cases h : l' = l
    · subst h
      simp [Family.upsert, Family.find]
    · simp [Family.upsert, Family.find, h, ih]

theorem Family.find_upsert_other (f : Family) (l l' : Labels) (v : Nat) (h : l' ≠ l) :
    (f.upsert l v).find l' = f.find l' := by
  induction f with
  | nil => simp [Family.upsert, Family.find, Ne.symm h]
  | cons hd tl ih =>
    obtain ⟨a, b⟩ := hd
    by_cases ha : a = l
    · subst ha
      simp [Family.upsert, Family.find, Ne.symm h]
    · simp [Family.upsert, Family.find, ha, ih]

theorem sampleOne_eq (spt acp : ℚ) (p : ProcView) (st : Store) :
    sampleOne spt acp p st = Option.map (applyOne st) (procResult spt acp p) := by
  unfold sampleOne procResult
  cases get_process_jiffies p.stat <;> rfl

theorem samplePass_eq_applyAll (spt acp : ℚ) :
    ∀ (ps : List ProcView) (st : Store),
      samplePass spt acp ps st =
        Option.map (fun rs => applyAll rs st) (procResults spt acp ps) := by
  intro ps
  induction ps with
  | nil => intro st; rfl
  | cons p rest ih =>
    intro st
    simp only [samplePass, procResults, sampleOne_eq]
    cases hp : procResult spt acp p with
    | none => rfl
    | some r =>
      simp only [Option.map_some']
      rw [ih (applyOne st r)]
      cases hrs : procResults spt acp rest <;> rfl

theorem procResult_label (spt acp : ℚ) (p : ProcView) (r : Labels × Nat × Nat)
    (h : procResult spt acp p = some r) : r.1 = mkLabels p := by
  unfold procResult at h
  cases hj : get_process_jiffies p.stat with
  | none => rw [hj] at h; cases h
  | some t => rw [hj] at h; cases h; rfl

theorem procResults_labels (spt acp : ℚ) :
    ∀ (ps : List ProcView) (rs : List (Labels × Nat × Nat)),
      procResults spt acp ps = some rs →
      rs.map (fun r => r.1) = ps.map mkLabels := by
  intro ps
  induction ps with
  | nil =>
    intro rs h
    cases h
    rfl
  | cons p rest ih =>
    intro rs h
    unfold procResults at h
    cases hp : procResult spt acp p with
    | none => rw [hp] at h; cases h
    | some r =>
      cases hrs : procResults spt acp rest with
      | none => rw [hp, hrs] at h; cases h
      | some rs' =>
        rw [hp, hrs] at h
        cases h
        simp only [List.map_cons]
        rw [procResult_label spt acp p r hp, ih rs' hrs]

theorem lastWrite_eq_none :
    ∀ (rs : List (Labels × Nat × Nat)) (l : Labels),
      (∀ r ∈ rs, r.1 ≠ l) → lastWrite rs l = none := by
  intro rs
  induction rs with
  | nil => intro l _; rfl
  | cons r rs ih =>
    intro l h
    simp only [lastWrite]
    rw [ih l (fun x hx => h x (List.mem_cons_of_mem _ hx))]
    simp [h r (List.mem_cons_self _ _)]

theorem find_applyAll_cpu :
    ∀ (rs : List (Labels × Nat × Nat)) (st : Store) (l : Labels),
      (applyAll rs st).cpu_time.find l =
        (lastWrite rs l).elim (st.cpu_time.find l) (fun v => some v.1) := by
  intro rs
  induction rs with
  | nil => intro st l; rfl
  | cons r rs ih =>
    intro st l
    simp only [applyAll]
    rw [ih]
    cases hlw : lastWrite rs l with
    | some v => simp [lastWrite, hlw]
    | none =>
      by_cases hr : r.1 = l
      · subst hr
        simp [lastWrite, hlw, applyOne, upsertStore, Family.find_upsert_self]
      · simp [lastWrite, hlw, hr, applyOne, upsertStore,
          Family.find_upsert_other _ _ _ _ (Ne.symm hr)]

theorem find_applyAll_energy :
    ∀ (rs : List (Labels × Nat × Nat)) (st : Store) (l : Labels),
      (applyAll rs st).energy.find l =
        (lastWrite rs l).elim (st.energy.find l) (fun v => some v.2) := by
  intro rs
  induction rs with
  | nil => intro st l; rfl
  | cons r rs ih =>
    intro st l
    simp only [applyAll]
    rw [ih]
    cases hlw : lastWrite rs l with
    | some v => simp [lastWrite, hlw]
    | none =>
      by_cases hr : r.1 = l
      · subst hr
        simp [lastWrite, hlw, applyOne, upsertStore, Family.find_upsert_self]
      · simp [lastWrite, hlw, hr, applyOne, upsertStore,
          Family.find_upsert_other _ _ _ _ (Ne.symm hr)]

theorem samplePass_factor (spt acp : ℚ) (ps : List ProcView) (st st' : Store)
    (h : samplePass spt acp ps st = some st') :
    ∃ rs, procResults spt acp ps = some rs ∧ st' = applyAll rs st := by
  rw [samplePass_eq_applyAll] at h
  cases hrs : procResults spt acp ps with
  | none => rw [hrs] at h; cases h
  | some rs =>
    rw [hrs, Option.map_some'] at h
    exact ⟨rs, rfl, (Option.some.injEq _ _ ▸ h).symm⟩

theorem f64ToU64_eq_floor (q : ℚ) (h0 : 0 ≤ q) (h64 : ⌊q⌋ < 2 ^ 64) :
    f64ToU64 q = ⌊q⌋.toNat := by
  unfold f64ToU64
  by_cases h : q ≤ 0
  · have hq : q = 0 := le_antisymm h h0
    subst hq
    simp
  · rw [if_neg h]
    have hf : (0 : ℤ) ≤ ⌊q⌋ := Int.floor_nonneg.mpr h0
    have h2 : ((2 : ℤ) ^ 64) = ((18446744073709551616 : ℕ) : ℤ) := by norm_num
    rw [h2] at h64
    have h3 : (2 : ℕ) ^ 64 - 1 = 18446744073709551615 := by norm_num
    rw [h3]
    have h4 : ⌊q⌋.toNat ≤ 18446744073709551615 := by omega
    exact min_eq_left h4

/-- Claim C1, counterexample.  With one tick, half a second per tick and an
average core power of 7200 W, the upsert stores cpu_seconds 0 and
energy_wh 1, yet floor of the stored (truncated) cpu_seconds times the
core power over 3600 is 0: the source computes the energy from the
un-truncated run time, not from the stored CPU-seconds value.  This
refutes the claimed invariant at a concrete reachable input. -/
theorem c1_counterexample :
    (0 : ℚ) ≤ 7200 ∧
    sampleOne (1 / 2) 7200 p1tick emptyStore =
      some { cpu_time := [(l1ex, 0)], energy := [(l1ex, 1)] } ∧
    (1 : Nat) ≠ ⌊((0 : Nat) : ℚ) * 7200 / 3600⌋.toNat := by
  have hj : get_process_jiffies p1tick.stat = some 1 := by decide
  have hc : cpuSecondsStored 1 (1 / 2) = 0 := by
    unfold cpuSecondsStored runTime f64ToU64
    norm_num
  have he : energyStored 1 (1 / 2) 7200 = 1 := by
    unfold energyStored runTime f64ToU64
    norm_num
  refine ⟨by norm_num, ?_, by norm_num⟩
  unfold sampleOne
  rw [hj]
  show some (upsertStore emptyStore (mkLabels p1tick)
    (cpuSecondsStored 1 (1 / 2)) (energyStored 1 (1 / 2) 7200)) = _
  rw [hc, he]
  decide

/-- Claim C1, amended.  After an upsert for a process whose record read
`t` total ticks, the stored energy_wh equals
`floor((t * seconds_per_tick) * average_core_power / 3600)` — computed
from the un-truncated run time, not from the stored truncated CPU-seconds
value — provided the factors are nonnegative and the result fits in a
`u64` (otherwise the saturating cast clamps it). -/
theorem c1_energy_formula (spt acp : ℚ) (p : ProcView) (st st' : Store) (t : Nat)
    (hread : get_process_jiffies p.stat = some t)
    (hone : sampleOne spt acp p st = some st')
    (hspt : 0 ≤ spt) (hacp : 0 ≤ acp)
    (hfit : ⌊(t : ℚ) * spt * acp / 3600⌋ < 2 ^ 64) :
    st'.energy.find (mkLabels p) = some (⌊(t : ℚ) * spt * acp / 3600⌋.toNat) := by
  unfold sampleOne at hone
  rw [hread] at hone
  have hone2 : some (upsertStore st (mkLabels p)
      (cpuSecondsStored t spt) (energyStored t spt acp)) = some st' := hone
  injection hone2 with hone2
  subst hone2
  show (st.energy.upsert (mkLabels p) (energyStored t spt acp)).find (mkLabels p) = _
  rw [Family.find_upsert_self]
  have h0 : 0 ≤ (t : ℚ) * spt * acp / 3600 :=
    div_nonneg (mul_nonneg (mul_nonneg (Nat.cast_nonneg t) hspt) hacp) (by norm_num)
  unfold energyStored runTime
  rw [f64ToU64_eq_floor _ h0 hfit]

/-- Claim C1, witness for the amended theorem at seconds-per-tick 1, core
power 0 and 100 ticks. -/
theorem c1_witness :
    stW100.energy.find (mkLabels p100) = some (⌊((100 : Nat) : ℚ) * 1 * 0 / 3600⌋.toNat) :=
  c1_energy_formula 1 0 p100 emptyStore stW100 100 (by decide) rfl zero_le_one le_rfl
    (by norm_num)

/-- Claim C2, counterexample.  A record that reads successfully but is
malformed ("x") does not contribute zero ticks: the `unwrap` panics, the
pass aborts, and the other process in the same pass is never sampled. -/
theorem c2_counterexample :
    get_process_jiffies pBad.stat ≠ some 0 ∧
    samplePass 1 1 [pBad, p100] emptyStore = none := by
  constructor
  · decide
  · decide

/-- Claim C2, amended.  When reading a process's accounting record fails
(the `Err` arm: process exited, permission denied), that process
contributes zero total ticks and the pass continues over the remaining
processes exactly as it would from the updated store; a successfully read
but malformed record instead panics and aborts the whole pass. -/
theorem c2_read_failure_isolated (spt acp : ℚ) (st : Store) (pA : ProcView)
    (rest : List ProcView) (h : pA.stat = none) :
    get_process_jiffies pA.stat = some 0 ∧
    samplePass spt acp (pA :: rest) st =
      samplePass spt acp rest
        (upsertStore st (mkLabels pA) (cpuSecondsStored 0 spt) (energyStored 0 spt acp)) := by
  constructor
  · rw [h]
    rfl
  · have hone : sampleOne spt acp pA st =
        some (upsertStore st (mkLabels pA) (cpuSecondsStored 0 spt) (energyStored 0 spt acp)) := by
      unfold sampleOne
      rw [h]
      rfl
    simp [samplePass, hone]

/-- Claim C2, witness: the unreadable process contributes zero and the
remaining singleton pass still runs. -/
theorem c2_witness :
    get_process_jiffies pFail.stat = some 0 ∧
    samplePass 1 1 (pFail :: [p100]) emptyStore =
      samplePass 1 1 [p100]
        (upsertStore emptyStore (mkLabels pFail) (cpuSecondsStored 0 1) (energyStored 0 1 1)) :=
  c2_read_failure_isolated 1 1 emptyStore pFail [p100] rfl

/-- Claim C3, counterexample.  At one tick and 2^64 seconds per tick the
saturating `f64 as u64` cast clamps the stored value to `u64::MAX`, which
is not the floor of the product, so the claimed identity does not hold for
all positive seconds-per-tick values. -/
theorem c3_counterexample :
    (0 : ℚ) < 18446744073709551616 ∧
    cpuSecondsStored 1 18446744073709551616 = 2 ^ 64 - 1 ∧
    ⌊((1 : Nat) : ℚ) * 18446744073709551616⌋.toNat = 2 ^ 64 ∧
    cpuSecondsStored 1 18446744073709551616 ≠
      ⌊((1 : Nat) : ℚ) * 18446744073709551616⌋.toNat := by
  have hc : cpuSecondsStored 1 18446744073709551616 = 2 ^ 64 - 1 := by
    unfold cpuSecondsStored runTime f64ToU64
    norm_num
  have hf : ⌊((1 : Nat) : ℚ) * 18446744073709551616⌋.toNat = 2 ^ 64 := by
    norm_num
    rfl
  refine ⟨by norm_num, hc, hf, ?_⟩
  rw [hc, hf]
  norm_num

/-- Claim C3, amended.  For all total ticks and positive seconds-per-tick,
the stored cpu_seconds equals `floor(total_ticks * seconds_per_tick)`
(hence is never negative) whenever that floor fits in a `u64`; beyond
`u64::MAX` the saturating cast clamps instead. -/
theorem c3_cpu_seconds_floor (ticks : Nat) (spt : ℚ) (hspt : 0 < spt)
    (hfit : ⌊(ticks : ℚ) * spt⌋ < 2 ^ 64) :
    cpuSecondsStored ticks spt = ⌊(ticks : ℚ) * spt⌋.toNat := by
  unfold cpuSecondsStored runTime
  exact f64ToU64_eq_floor _ (mul_nonneg (Nat.cast_nonneg ticks) hspt.le) hfit

/-- Claim C3, witness at 2 ticks and one second per tick. -/
theorem c3_witness : cpuSecondsStored 2 1 = ⌊((2 : Nat) : ℚ) * 1⌋.toNat :=
  c3_cpu_seconds_floor 2 1 one_pos (by norm_num)

/-- Claim C4.  Two consecutive passes whose reads report 100 then 150 ticks
for the same identity leave the Store holding exactly the values derived
from 150 (the upsert overwrites; nothing is added to the prior value). -/
theorem c4_overwrite (spt acp : ℚ) (st : Store) (p q : ProcView)
    (_hl : mkLabels p = mkLabels q)
    (h1 : get_process_jiffies p.stat = some 100)
    (h2 : get_process_jiffies q.stat = some 150) :
    ∃ st₁ st₂,
      samplePass spt acp [p] st = some st₁ ∧
      samplePass spt acp [q] st₁ = some st₂ ∧
      st₂.cpu_time.find (mkLabels q) = some (cpuSecondsStored 150 spt) ∧
      st₂.energy.find (mkLabels q) = some (energyStored 150 spt acp) := by
  have e1 : sampleOne spt acp p st =
      some (upsertStore st (mkLabels p) (cpuSecondsStored 100 spt) (energyStored 100 spt acp)) := by
    unfold sampleOne
    rw [h1]
  refine ⟨upsertStore st (mkLabels p) (cpuSecondsStored 100 spt) (energyStored 100 spt acp),
    upsertStore (upsertStore st (mkLabels p) (cpuSecondsStored 100 spt) (energyStored 100 spt acp))
      (mkLabels q) (cpuSecondsStored 150 spt) (energyStored 150 spt acp), ?_, ?_, ?_, ?_⟩
  · simp [samplePass, e1]
  · have e2 : sampleOne spt acp q
        (upsertStore st (mkLabels p) (cpuSecondsStored 100 spt) (energyStored 100 spt acp)) =
        some (upsertStore
          (upsertStore st (mkLabels p) (cpuSecondsStored 100 spt) (energyStored 100 spt acp))
          (mkLabels q) (cpuSecondsStored 150 spt) (energyStored 150 spt acp)) := by
      unfold sampleOne
      rw [h2]
    simp [samplePass, e2]
  · exact Family.find_upsert_self _ _ _
  · exact Family.find_upsert_self _ _ _

/-- Claim C4, witness: at conversion factors one, the stored value after the
two passes is the one derived from 150. -/
theorem c4_witness :
    ∃ st₁ st₂,
      samplePass 1 1 [p100] emptyStore = some st₁ ∧
      samplePass 1 1 [p150] st₁ = some st₂ ∧
      st₂.cpu_time.find (mkLabels p150) = some (cpuSecondsStored 150 1) ∧
      st₂.energy.find (mkLabels p150) = some (energyStored 150 1 1) :=
  c4_overwrite 1 1 emptyStore p100 p150 rfl (by decide) (by decide)

/-- Claim C5.  Over any sequence of passes that completes, an identity
present in the Store stays present, and if no process of any pass maps to
its label, both of its stored values are unchanged — there is no deletion
operation. -/
theorem c5_no_deletion (spt acp : ℚ) (inputs : List PassInput) (st st' : Store)
    (l : Labels) (h : runPasses spt acp inputs st = some st') :
    ((st.cpu_time.find l).isSome → (st'.cpu_time.find l).isSome) ∧
    ((st.energy.find l).isSome → (st'.energy.find l).isSome) ∧
    ((∀ i ∈ inputs, ∀ p ∈ i.procs, mkLabels p ≠ l) →
      st'.cpu_time.find l = st.cpu_time.find l ∧
      st'.energy.find l = st.energy.find l) := by
  induction inputs generalizing st with
  | nil =>
    simp only [runPasses] at h
    injection h with h
    subst h
    exact ⟨id, id, fun _ => ⟨rfl, rfl⟩⟩
  | cons i rest ih =>
    simp only [runPasses] at h
    cases hp : samplePass spt acp i.procs st with
    | none => rw [hp] at h; cases h
    | some st₁ =>
      rw [hp] at h
      obtain ⟨rs, hrs, hst₁⟩ := samplePass_factor spt acp i.procs st st₁ hp
      subst hst₁
      obtain ⟨ihc, ihe, ihu⟩ := ih _ h
      refine ⟨?_, ?_, ?_⟩
      · intro hsome
        apply ihc
        rw [find_applyAll_cpu]
        cases hlw : lastWrite rs l with
        | none => exact hsome
        | some v => rfl
      · intro hsome
        apply ihe
        rw [find_applyAll_energy]
        cases hlw : lastWrite rs l with
        | none => exact hsome
        | some v => rfl
      · intro hnone
        have hnoneHead : ∀ r ∈ rs, r.1 ≠ l := by
          intro r hr
          have hmem : r.1 ∈ rs.map (fun x => x.1) := List.mem_map_of_mem _ hr
          rw [procResults_labels spt acp i.procs rs hrs] at hmem
          obtain ⟨pp, hpp, hpe⟩ := List.mem_map.mp hmem
          rw [← hpe]
          exact hnone i (List.mem_cons_self _ _) pp hpp
        have hlw : lastWrite rs l = none := lastWrite_eq_none rs l hnoneHead
        have htail := ihu (fun j hj => hnone j (List.mem_cons_of_mem _ hj))
        rw [htail.1, htail.2, find_applyAll_cpu, find_applyAll_energy, hlw]
        exact ⟨rfl, rfl⟩

/-- Claim C5, witness: a label untouched by a one-pass run keeps its
(absent) values, and presence is preserved. -/
theorem c5_witness :
    ((emptyStore.cpu_time.find lOther).isSome → (stFail.cpu_time.find lOther).isSome) ∧
    ((emptyStore.energy.find lOther).isSome → (stFail.energy.find lOther).isSome) ∧
    ((∀ i ∈ [inFail], ∀ p ∈ i.procs, mkLabels p ≠ lOther) →
      stFail.cpu_time.find lOther = emptyStore.cpu_time.find lOther ∧
      stFail.energy.find lOther = emptyStore.energy.find lOther) :=
  c5_no_deletion 1 1 [inFail] emptyStore stFail lOther rfl

/-- Claim C6.  Repeating a completed pass on its own result succeeds and
stores, for every label, exactly the values already stored: sampling is
idempotent on identical input. -/
theorem c6_idempotent (spt acp : ℚ) (ps : List ProcView) (st st₁ : Store)
    (h : samplePass spt acp ps st = some st₁) :
    ∃ st₂, samplePass spt acp ps st₁ = some st₂ ∧
      ∀ l, st₂.cpu_time.find l = st₁.cpu_time.find l ∧
        st₂.energy.find l = st₁.energy.find l := by
  obtain ⟨rs, hrs, hst₁⟩ := samplePass_factor spt acp ps st st₁ h
  subst hst₁
  refine ⟨applyAll rs (applyAll rs st), ?_, ?_⟩
  · rw [samplePass_eq_applyAll, hrs]
    rfl
  · intro l
    constructor
    · cases hlw : lastWrite rs l with
      | none =>
        rw [find_applyAll_cpu rs (applyAll rs st) l, hlw]
        rfl
      | some v =>
        rw [find_applyAll_cpu rs (applyAll rs st) l, hlw,
          find_applyAll_cpu rs st l, hlw]
        rfl
    · cases hlw : lastWrite rs l with
      | none =>
        rw [find_applyAll_energy rs (applyAll rs st) l, hlw]
        rfl
      | some v =>
        rw [find_applyAll_energy rs (applyAll rs st) l, hlw,
          find_applyAll_energy rs st l, hlw]
        rfl

/-- Claim C6, witness: repeating the one-process pass on its own result
changes nothing. -/
theorem c6_witness :
    ∃ st₂, samplePass 1 1 [pFail] stFail = some st₂ ∧
      ∀ l, st₂.cpu_time.find l = stFail.cpu_time.find l ∧
        st₂.energy.find l = stFail.energy.find l :=
  c6_idempotent 1 1 [pFail] emptyStore stFail rfl

theorem runPasses_procs_congr (spt acp : ℚ) :
    ∀ (inputs inputs' : List PassInput) (st : Store),
      inputs.map PassInput.procs = inputs'.map PassInput.procs →
      runPasses spt acp inputs st = runPasses spt acp inputs' st := by
  intro inputs
  induction inputs with
  | nil =>
    intro inputs' st h
    cases inputs' with
    | nil => rfl
    | cons j t => simp at h
  | cons i t ih =>
    intro inputs' st h
    cases inputs' with
    | nil => simp at h
    | cons j t' =>
      simp only [List.map_cons, List.cons.injEq] at h
      obtain ⟨h1, h2⟩ := h
      simp only [runPasses, h1]
      cases samplePass spt acp j.procs st with
      | none => rfl
      | some st₁ => exact ih t' st₁ h2

/-- Claim C7.  The power model is `average_die_power / num_physical_cores`
exactly; it is resolved once at startup, it is the value every pass uses,
and the run outcome does not depend on the physical-core counts the host
would report during later passes. -/
theorem c7_power_model (cli : Cli) (os : OsStartup) (clk : Int)
    (inputs inputs' : List PassInput)
    (hclk : os.clk_tck = some clk)
    (hp : inputs.map PassInput.procs = inputs'.map PassInput.procs) :
    averageCorePower cli.average_die_power os.num_physical_cores =
      cli.average_die_power / (os.num_physical_cores : ℚ) ∧
    mainModel cli os inputs =
      RunOutcome.ran (runPasses (1 / (clk : ℚ))
        (averageCorePower cli.average_die_power os.num_physical_cores) inputs emptyStore) ∧
    mainModel cli os inputs = mainModel cli os inputs' := by
  refine ⟨rfl, ?_, ?_⟩
  · simp [mainModel, hclk]
  · simp only [mainModel, hclk]
    exact congrArg _ (runPasses_procs_congr _ _ inputs inputs' emptyStore hp)

/-- Claim C7, witness: with a clock rate of 100 the run outcome is the same
whether later passes would report 4 or 9 physical cores. -/
theorem c7_witness :
    averageCorePower cliW.average_die_power osW.num_physical_cores =
      cliW.average_die_power / (osW.num_physical_cores : ℚ) ∧
    mainModel cliW osW [inA] =
      RunOutcome.ran (runPasses (1 / ((100 : Int) : ℚ))
        (averageCorePower cliW.average_die_power osW.num_physical_cores) [inA] emptyStore) ∧
    mainModel cliW osW [inA] = mainModel cliW osW [inB] :=
  c7_power_model cliW osW 100 [inA] [inB] rfl rfl

/-- Claim C8.  When the clock-rate query fails at startup, the run is a
startup failure (the `unwrap` panic's non-zero exit) and is never the
outcome of a started sampling loop, so no sample is ever written. -/
theorem c8_startup_failure (cli : Cli) (os : OsStartup) (inputs : List PassInput)
    (h : os.clk_tck = none) :
    mainModel cli os inputs = RunOutcome.startupFailure ∧
    ∀ result, mainModel cli os inputs ≠ RunOutcome.ran result := by
  constructor
  · simp [mainModel, h]
  · intro result
    simp [mainModel, h]

/-- Claim C8, witness on the host whose clock-rate query fails. -/
theorem c8_witness :
    mainModel cliW osFail [inA] = RunOutcome.startupFailure ∧
    ∀ result, mainModel cliW osFail [inA] ≠ RunOutcome.ran result :=
  c8_startup_failure cliW osFail [inA] rfl

/-- Claim C9.  One loop iteration only touches the entry keyed by its own
labels: for every other label both stored series are unchanged. -/
theorem c9_frame (spt acp : ℚ) (p : ProcView) (st st' : Store)
    (h : sampleOne spt acp p st = some st') (l : Labels) (hl : l ≠ mkLabels p) :
    st'.cpu_time.find l = st.cpu_time.find l ∧
    st'.energy.find l = st.energy.find l := by
  unfold sampleOne at h
  cases hj : get_process_jiffies p.stat with
  | none => rw [hj] at h; cases h
  | some t =>
    rw [hj] at h
    have h2 : some (upsertStore st (mkLabels p)
        (cpuSecondsStored t spt) (energyStored t spt acp)) = some st' := h
    injection h2 with h2
    subst h2
    exact ⟨Family.find_upsert_other _ _ _ _ hl, Family.find_upsert_other _ _ _ _ hl⟩

/-- Claim C9, witness: upserting the unreadable process's entry leaves an
unrelated label's series unchanged. -/
theorem c9_witness :
    stFail.cpu_time.find lOther = emptyStore.cpu_time.find lOther ∧
    stFail.energy.find lOther = emptyStore.energy.find lOther :=
  c9_frame 1 1 pFail emptyStore stFail rfl lOther (by decide)

/-- Claim C10, counterexample.  Both fields parse as `u64`, but the `u64`
sum wraps modulo 2^64, so the returned value is not the mathematical sum
of the two fields. -/
theorem c10_counterexample :
    parseU64 "18446744073709551615".data = some 18446744073709551615 ∧
    (splitChar ' ' statOverflow.data)[13]? = some "18446744073709551615".data ∧
    (splitChar ' ' statOverflow.data)[14]? = some "18446744073709551615".data ∧
    get_process_jiffies (some statOverflow) = some 18446744073709551614 ∧
    (18446744073709551614 : Nat) ≠ 18446744073709551615 + 18446744073709551615 := by
  refine ⟨by decide, by decide, by decide, by decide, by decide⟩

/-- Claim C10, amended.  A failed read returns 0; a successful read whose
space-split fields 13 and 14 both parse as `u64` returns their sum
reduced modulo 2^64 (`u64` wrapping addition); and every successful read
either panics (`none`) or is of that well-formed shape, so contents
violating the precondition never fall into the zero-reading branch. -/
theorem c10_jiffies_total (c : String) (f13 f14 : List Char) (u s : Nat)
    (h13 : (splitChar ' ' c.data)[13]? = some f13)
    (hu : parseU64 f13 = some u)
    (h14 : (splitChar ' ' c.data)[14]? = some f14)
    (hs : parseU64 f14 = some s) :
    get_process_jiffies none = some 0 ∧
    get_process_jiffies (some c) = some ((u + s) % 2 ^ 64) ∧
    ∀ c' : String,
      get_process_jiffies (some c') = none ∨
      ∃ g13 g14 v w,
        (splitChar ' ' c'.data)[13]? = some g13 ∧ parseU64 g13 = some v ∧
        (splitChar ' ' c'.data)[14]? = some g14 ∧ parseU64 g14 = some w ∧
        get_process_jiffies (some c') = some ((v + w) % 2 ^ 64) := by
  refine ⟨rfl, ?_, ?_⟩
  · simp only [get_process_jiffies, h13, hu, h14, hs]
  · intro c'
    cases h13' : (splitChar ' ' c'.data)[13]? with
    | none =>
      left
      simp only [get_process_jiffies, h13']
    | some g13 =>
      cases hu' : parseU64 g13 with
      | none =>
        left
        simp only [get_process_jiffies, h13', hu']
      | some v =>
        cases h14' : (splitChar ' ' c'.data)[14]? with
        | none =>
          left
          simp only [get_process_jiffies, h13', hu', h14']
        | some g14 =>
          cases hs' : parseU64 g14 with
          | none =>
            left
            simp only [get_process_jiffies, h13', hu', h14', hs']
          | some w =>
            right
            exact ⟨g13, g14, v, w, rfl, hu', rfl, hs', by
              simp only [get_process_jiffies, h13', hu', h14', hs']⟩

/-- Claim C10, witness on a record whose fields 13 and 14 read 1 and 2. -/
theorem c10_witness :
    get_process_jiffies none = some 0 ∧
    get_process_jiffies (some statW) = some ((1 + 2) % 2 ^ 64) ∧
    ∀ c' : String,
      get_process_jiffies (some c') = none ∨
      ∃ g13 g14 v w,
        (splitChar ' ' c'.data)[13]? = some g13 ∧ parseU64 g13 = some v ∧
        (splitChar ' ' c'.data)[14]? = some g14 ∧ parseU64 g14 = some w ∧
        get_process_jiffies (some c') = some ((v + w) % 2 ^ 64) :=
  c10_jiffies_total statW ['1'] ['2'] 1 2 (by decide) (by decide) (by decide) (by decide)
